import Mathlib

/-
  Shallow embedding of src/phase2/bot_trade.py: a sequential allocation engine
  that maps a stream of prices to a risky-asset/cash weight mapping, one call
  per epoch.  Python floats are idealised as real numbers; the mutable module
  globals (price_history, previous_allocation, highest_price_seen) become an
  explicit EngineState threaded through make_decision.  A second, division-
  checked variant (suffix _chk) returns none exactly where the Python code
  would raise ZeroDivisionError; it is used to settle the safety claim.
-/

noncomputable section

namespace BotTrade

/-- Window constants from the top of bot_trade.py. -/
def fast_trend_window : ℕ := 3

def medium_trend_window : ℕ := 15

def slow_trend_window : ℕ := 50

def breakout_window : ℕ := 30

def volatility_window : ℕ := 10

def zscore_window : ℕ := 10

/-- target_daily_volatility = 0.90 / sqrt(252). -/
def target_daily_volatility : ℝ := 0.90 / Real.sqrt 252

def minimum_volatility_scaler : ℝ := 0.35

def maximum_volatility_scaler : ℝ := 2.0

def minimum_allocation_change : ℝ := 0.06

/-- Python slice values[-k:] (for k bigger than the length, the whole list). -/
def lastN (k : ℕ) (xs : List ℝ) : List ℝ := xs.drop (xs.length - k)

/-- Python max() over a non-empty list (0 on the empty list, never used there). -/
def pymax : List ℝ → ℝ
  | [] => 0
  | x :: xs => xs.foldl max x

/-- compute_simple_moving_average: sum(values) / len(values). -/
def compute_simple_moving_average (values : List ℝ) : ℝ :=
  values.sum / (values.length : ℝ)

/-- The population variance computed (with the same formula) both inside
compute_standard_deviation and inside compute_volatility_scaler: mean of the
squared deviations from the simple average. -/
def population_variance (values : List ℝ) : ℝ :=
  let mean_value := compute_simple_moving_average values
  ((values.map fun value => (value - mean_value) ^ 2).sum) / (values.length : ℝ)

/-- compute_standard_deviation: population standard deviation with a guard
returning 0.0 when the variance is nonpositive. -/
def compute_standard_deviation (values : List ℝ) : ℝ :=
  if population_variance values ≤ 0 then 0.0 else Real.sqrt (population_variance values)

/-- The dictionary returned by compute_trend_metrics. -/
structure TrendMetrics where
  fast_trend_strength : ℝ
  medium_trend_strength : ℝ
  fast_moving_average : ℝ
  medium_moving_average : ℝ
  slow_moving_average : ℝ

/-- compute_trend_metrics over an explicit price history (the Python global). -/
def compute_trend_metrics (price_history : List ℝ) : TrendMetrics :=
  let fast_moving_average := compute_simple_moving_average (lastN fast_trend_window price_history)
  let medium_moving_average := compute_simple_moving_average (lastN medium_trend_window price_history)
  let slow_moving_average := compute_simple_moving_average (lastN slow_trend_window price_history)
  if slow_moving_average = 0 then
    ⟨0.0, 0.0, fast_moving_average, medium_moving_average, slow_moving_average⟩
  else
    ⟨(fast_moving_average - slow_moving_average) / slow_moving_average,
     (medium_moving_average - slow_moving_average) / slow_moving_average,
     fast_moving_average, medium_moving_average, slow_moving_average⟩

/-- compute_zscore_relative_to_fast_ma. -/
def compute_zscore_relative_to_fast_ma (price_history : List ℝ)
    (current_price fast_moving_average : ℝ) : ℝ :=
  if price_history.length < max zscore_window fast_trend_window then 0.0
  else
    let standard_deviation := compute_standard_deviation (lastN zscore_window price_history)
    if standard_deviation = 0 then 0.0
    else (current_price - fast_moving_average) / standard_deviation

/-- The list comprehension building the single-period returns inside
compute_volatility_scaler: recent[i+1]/recent[i] - 1 for i in range(10). -/
def single_period_returns (recent_prices : List ℝ) : List ℝ :=
  (List.range volatility_window).map fun index =>
    recent_prices.getD (index + 1) 0 / recent_prices.getD index 0 - 1.0

/-- compute_volatility_scaler. -/
def compute_volatility_scaler (price_history : List ℝ) : ℝ :=
  if price_history.length < volatility_window + 1 then 1.0
  else
    let recent_prices := lastN (volatility_window + 1) price_history
    let returns := single_period_returns recent_prices
    let variance := population_variance returns
    if variance ≤ 0 then 1.0
    else
      let realized_daily_volatility := Real.sqrt variance
      if realized_daily_volatility = 0 then 1.0
      else
        let raw_scaler := target_daily_volatility / realized_daily_volatility
        if raw_scaler < minimum_volatility_scaler then minimum_volatility_scaler
        else if raw_scaler > maximum_volatility_scaler then maximum_volatility_scaler
        else raw_scaler

/-- The realized volatility of the last 10 single-period returns, as a named
quantity: it coincides with the value the scaler branches on. -/
def realized_volatility (price_history : List ℝ) : ℝ :=
  compute_standard_deviation (single_period_returns (lastN (volatility_window + 1) price_history))

/-- compute_breakout_factor. -/
def compute_breakout_factor (price_history : List ℝ) (current_price : ℝ) : ℝ :=
  if price_history.length < breakout_window then 0.0
  else
    let recent_prices := lastN breakout_window price_history
    let highest_recent_price := pymax recent_prices
    if highest_recent_price = 0 then 0.0
    else
      let distance_from_high := (current_price - highest_recent_price) / highest_recent_price
      if distance_from_high ≥ 0.0 then 1.0
      else if distance_from_high ≥ -0.01 then 0.7
      else 0.0

/-- The peak update performed both at the top of make_decision and at the top
of apply_drawdown_overlay: if highest is None or price is larger, take price. -/
def peakUpd (highest_price_seen : Option ℝ) (current_price : ℝ) : Option ℝ :=
  match highest_price_seen with
  | none => some current_price
  | some h => if current_price > h then some current_price else some h

/-- apply_drawdown_overlay; the mutated global highest_price_seen becomes the
second component of the result. -/
def apply_drawdown_overlay (highest_price_seen : Option ℝ)
    (allocation current_price : ℝ) : ℝ × Option ℝ :=
  let hps := peakUpd highest_price_seen current_price
  match hps with
  | none => (allocation, hps)
  | some hp =>
    if hp ≤ 0 then (allocation, hps)
    else
      let drawdown := current_price / hp - 1.0
      if drawdown ≤ -0.45 then (0.0, hps)
      else if drawdown ≤ -0.35 ∧ allocation > 0.4 then (0.4, hps)
      else (allocation, hps)

/-- apply_hysteresis; the mutated global previous_allocation becomes the second
component of the result. -/
def apply_hysteresis (previous_allocation : Option ℝ) (allocation : ℝ) : ℝ × Option ℝ :=
  match previous_allocation with
  | none => (allocation, some allocation)
  | some p =>
    if |allocation - p| < minimum_allocation_change then (p, some p)
    else (allocation, some allocation)

/-- compute_regime_based_allocation; sequential reassignments of
base_allocation become a chain of lets. -/
def compute_regime_based_allocation (price_history : List ℝ) (current_price : ℝ) : ℝ :=
  let trend_metrics := compute_trend_metrics price_history
  let fast_trend_strength := trend_metrics.fast_trend_strength
  let medium_trend_strength := trend_metrics.medium_trend_strength
  let fast_moving_average := trend_metrics.fast_moving_average
  let slow_moving_average := trend_metrics.slow_moving_average
  if slow_moving_average = 0 then 0.7
  else
    let price_vs_slow := (current_price - slow_moving_average) / slow_moving_average
    let zscore_fast := compute_zscore_relative_to_fast_ma price_history current_price fast_moving_average
    let breakout_factor := compute_breakout_factor price_history current_price
    if (fast_moving_average > slow_moving_average ∧ fast_trend_strength > 0.01 ∧
        medium_trend_strength > 0.004) ∧ price_vs_slow > 0.01 then
      let base1 : ℝ := 0.9
      let base2 := if breakout_factor ≥ 1.0 then 1.0 else base1
      let base3 := if zscore_fast ≤ -0.5 then 1.0 else base2
      let base4 := if zscore_fast ≥ 1.5 then 0.8 else base3
      base4
    else if price_vs_slow > 0.0 then
      let base1 : ℝ :=
        if fast_trend_strength > 0.005 ∨ medium_trend_strength > 0.003 then 0.8 else 0.6
      let base2 := if zscore_fast ≤ -0.7 then min 1.0 (base1 + 0.2) else base1
      base2
    else if fast_moving_average < slow_moving_average ∧ price_vs_slow < -0.01 then
      if fast_trend_strength < -0.03 then 0.0
      else if fast_trend_strength < -0.015 then 0.2
      else 0.3
    else if fast_trend_strength ≥ 0.0 then 0.5
    else 0.3

/-- The three module-level globals of bot_trade.py. -/
structure EngineState where
  price_history : List ℝ
  previous_allocation : Option ℝ
  highest_price_seen : Option ℝ

/-- The initial global state of the module. -/
def init : EngineState := ⟨[], none, none⟩

/-- make_decision: returns the decision dictionary (as an association list in
literal order) together with the updated global state. -/
def make_decision (s : EngineState) (epoch : ℕ) (current_price : ℝ) :
    List (String × ℝ) × EngineState :=
  let price_history := s.price_history ++ [current_price]
  let highest := peakUpd s.highest_price_seen current_price
  let warmup_period := max slow_trend_window (max (volatility_window + 1) (zscore_window + 1))
  if epoch < warmup_period then
    let initial_allocation : ℝ := 0.7
    let r := apply_hysteresis s.previous_allocation initial_allocation
    ([("Asset B", r.1), ("Cash", 1.0 - r.1)], ⟨price_history, r.2, highest⟩)
  else
    let regime_allocation := compute_regime_based_allocation price_history current_price
    let volatility_scaler := compute_volatility_scaler price_history
    let effective_scaler :=
      if regime_allocation > 0.7 ∧ volatility_scaler < 1.0 then max 0.9 volatility_scaler
      else volatility_scaler
    let scaled_allocation := regime_allocation * effective_scaler
    let scaled_allocation2 := if scaled_allocation < 0.0 then 0.0 else scaled_allocation
    let scaled_allocation3 := if scaled_allocation2 > 1.0 then 1.0 else scaled_allocation2
    let dd := apply_drawdown_overlay highest scaled_allocation3 current_price
    let r := apply_hysteresis s.previous_allocation dd.1
    ([("Asset B", r.1), ("Cash", 1.0 - r.1)], ⟨price_history, r.2, dd.2⟩)

/-- Run a sequence of (epoch, price) calls from a state, keeping final state. -/
def run : EngineState → List (ℕ × ℝ) → EngineState
  | s, [] => s
  | s, (e, p) :: rest => run (make_decision s e p).2 rest

/-- The list of decision dictionaries produced along a sequence of calls. -/
def decisions : EngineState → List (ℕ × ℝ) → List (List (String × ℝ))
  | _, [] => []
  | s, (e, p) :: rest =>
      (make_decision s e p).1 :: decisions (make_decision s e p).2 rest

/-- The risky-asset weight of a returned decision dictionary (its first entry). -/
def risky_weight (d : List (String × ℝ)) : ℝ := (d.headD ("", 0)).2

/-! ### Division-checked embedding

Python raises ZeroDivisionError on a zero denominator.  The _chk variants
below mirror the code with every division routed through cdiv, which fails
(returns none) exactly on a zero denominator; everything else is unchanged.
The safety claim states that on the inputs the interface contract allows
(positive prices), the checked run never fails and agrees with the total
embedding above. -/

/-- Checked division: none exactly when the Python division would raise. -/
def cdiv (a b : ℝ) : Option ℝ := if b = 0 then none else some (a / b)

/-- Sequence a list of checked computations left to right, as a Python list
comprehension would, failing on the first failure. -/
def seqOpt (f : ℕ → Option ℝ) : List ℕ → Option (List ℝ)
  | [] => some []
  | i :: is => do
      let x ← f i
      let xs ← seqOpt f is
      some (x :: xs)

/-- Checked compute_simple_moving_average. -/
def compute_simple_moving_average_chk (values : List ℝ) : Option ℝ :=
  cdiv values.sum (values.length : ℝ)

/-- Checked population_variance. -/
def population_variance_chk (values : List ℝ) : Option ℝ := do
  let mean_value ← compute_simple_moving_average_chk values
  cdiv ((values.map fun value => (value - mean_value) ^ 2).sum) (values.length : ℝ)

/-- Checked compute_standard_deviation. -/
def compute_standard_deviation_chk (values : List ℝ) : Option ℝ := do
  let variance ← population_variance_chk values
  if variance ≤ 0 then some 0.0 else some (Real.sqrt variance)

/-- Checked compute_trend_metrics. -/
def compute_trend_metrics_chk (price_history : List ℝ) : Option TrendMetrics := do
  let fast_moving_average ← compute_simple_moving_average_chk (lastN fast_trend_window price_history)
  let medium_moving_average ← compute_simple_moving_average_chk (lastN medium_trend_window price_history)
  let slow_moving_average ← compute_simple_moving_average_chk (lastN slow_trend_window price_history)
  if slow_moving_average = 0 then
    some ⟨0.0, 0.0, fast_moving_average, medium_moving_average, slow_moving_average⟩
  else do
    let fast_trend_strength ← cdiv (fast_moving_average - slow_moving_average) slow_moving_average
    let medium_trend_strength ← cdiv (medium_moving_average - slow_moving_average) slow_moving_average
    some ⟨fast_trend_strength, medium_trend_strength,
          fast_moving_average, medium_moving_average, slow_moving_average⟩

/-- Checked compute_zscore_relative_to_fast_ma. -/
def compute_zscore_relative_to_fast_ma_chk (price_history : List ℝ)
    (current_price fast_moving_average : ℝ) : Option ℝ :=
  if price_history.length < max zscore_window fast_trend_window then some 0.0
  else do
    let standard_deviation ← compute_standard_deviation_chk (lastN zscore_window price_history)
    if standard_deviation = 0 then some 0.0
    else cdiv (current_price - fast_moving_average) standard_deviation

/-- Checked compute_volatility_scaler. -/
def compute_volatility_scaler_chk (price_history : List ℝ) : Option ℝ :=
  if price_history.length < volatility_window + 1 then some 1.0
  else do
    let recent_prices := lastN (volatility_window + 1) price_history
    let returns ← seqOpt
      (fun index => (cdiv (recent_prices.getD (index + 1) 0) (recent_prices.getD index 0)).map
        fun q => q - 1.0)
      (List.range volatility_window)
    let variance ← population_variance_chk returns
    if variance ≤ 0 then some 1.0
    else
      let realized_daily_volatility := Real.sqrt variance
      if realized_daily_volatility = 0 then some 1.0
      else do
        let raw_scaler ← cdiv target_daily_volatility realized_daily_volatility
        if raw_scaler < minimum_volatility_scaler then some minimum_volatility_scaler
        else if raw_scaler > maximum_volatility_scaler then some maximum_volatility_scaler
        else some raw_scaler

/-- Checked compute_breakout_factor. -/
def compute_breakout_factor_chk (price_history : List ℝ) (current_price : ℝ) : Option ℝ :=
  if price_history.length < breakout_window then some 0.0
  else
    let highest_recent_price := pymax (lastN breakout_window price_history)
    if highest_recent_price = 0 then some 0.0
    else do
      let distance_from_high ← cdiv (current_price - highest_recent_price) highest_recent_price
      if distance_from_high ≥ 0.0 then some 1.0
      else if distance_from_high ≥ -0.01 then some 0.7
      else some 0.0

/-- Checked apply_drawdown_overlay. -/
def apply_drawdown_overlay_chk (highest_price_seen : Option ℝ)
    (allocation current_price : ℝ) : Option (ℝ × Option ℝ) :=
  let hps := peakUpd highest_price_seen current_price
  match hps with
  | none => some (allocation, hps)
  | some hp =>
    if hp ≤ 0 then some (allocation, hps)
    else do
      let q ← cdiv current_price hp
      let drawdown := q - 1.0
      if drawdown ≤ -0.45 then some (0.0, hps)
      else if drawdown ≤ -0.35 ∧ allocation > 0.4 then some (0.4, hps)
      else some (allocation, hps)

/-- Checked compute_regime_based_allocation. -/
def compute_regime_based_allocation_chk (price_history : List ℝ) (current_price : ℝ) :
    Option ℝ := do
  let trend_metrics ← compute_trend_metrics_chk price_history
  let fast_trend_strength := trend_metrics.fast_trend_strength
  let medium_trend_strength := trend_metrics.medium_trend_strength
  let fast_moving_average := trend_metrics.fast_moving_average
  let slow_moving_average := trend_metrics.slow_moving_average
  if slow_moving_average = 0 then some 0.7
  else do
    let price_vs_slow ← cdiv (current_price - slow_moving_average) slow_moving_average
    let zscore_fast ← compute_zscore_relative_to_fast_ma_chk price_history current_price
      fast_moving_average
    let breakout_factor ← compute_breakout_factor_chk price_history current_price
    if (fast_moving_average > slow_moving_average ∧ fast_trend_strength > 0.01 ∧
        medium_trend_strength > 0.004) ∧ price_vs_slow > 0.01 then
      let base1 : ℝ := 0.9
      let base2 := if breakout_factor ≥ 1.0 then 1.0 else base1
      let base3 := if zscore_fast ≤ -0.5 then 1.0 else base2
      let base4 := if zscore_fast ≥ 1.5 then 0.8 else base3
      some base4
    else if price_vs_slow > 0.0 then
      let base1 : ℝ :=
        if fast_trend_strength > 0.005 ∨ medium_trend_strength > 0.003 then 0.8 else 0.6
      let base2 := if zscore_fast ≤ -0.7 then min 1.0 (base1 + 0.2) else base1
      some base2
    else if fast_moving_average < slow_moving_average ∧ price_vs_slow < -0.01 then
      if fast_trend_strength < -0.03 then some 0.0
      else if fast_trend_strength < -0.015 then some 0.2
      else some 0.3
    else if fast_trend_strength ≥ 0.0 then some 0.5
    else some 0.3

/-- Checked make_decision. -/
def make_decision_chk (s : EngineState) (epoch : ℕ) (current_price : ℝ) :
    Option (List (String × ℝ) × EngineState) :=
  let price_history := s.price_history ++ [current_price]
  let highest := peakUpd s.highest_price_seen current_price
  let warmup_period := max slow_trend_window (max (volatility_window + 1) (zscore_window + 1))
  if epoch < warmup_period then
    let initial_allocation : ℝ := 0.7
    let r := apply_hysteresis s.previous_allocation initial_allocation
    some ([("Asset B", r.1), ("Cash", 1.0 - r.1)], ⟨price_history, r.2, highest⟩)
  else do
    let regime_allocation ← compute_regime_based_allocation_chk price_history current_price
    let volatility_scaler ← compute_volatility_scaler_chk price_history
    let effective_scaler :=
      if regime_allocation > 0.7 ∧ volatility_scaler < 1.0 then max 0.9 volatility_scaler
      else volatility_scaler
    let scaled_allocation := regime_allocation * effective_scaler
    let scaled_allocation2 := if scaled_allocation < 0.0 then 0.0 else scaled_allocation
    let scaled_allocation3 := if scaled_allocation2 > 1.0 then 1.0 else scaled_allocation2
    let dd ← apply_drawdown_overlay_chk highest scaled_allocation3 current_price
    let r := apply_hysteresis s.previous_allocation dd.1
    some ([("Asset B", r.1), ("Cash", 1.0 - r.1)], ⟨price_history, r.2, dd.2⟩)

/-- The allocation values reachable by the engine: exactly zero, or at least
0.07 (= bearish base 0.2 times minimum scaler 0.35) and at most one. -/
def allocOK (a : ℝ) : Prop := a = 0 ∨ (0.07 ≤ a ∧ a ≤ 1)

/-- Invariant on the stored previous_allocation global. -/
def prevOK : Option ℝ → Prop
  | none => True
  | some a => allocOK a

/-! ### Basic lemmas about the list helpers -/

theorem le_foldl_max (l : List ℝ) : ∀ a : ℝ, a ≤ l.foldl max a := by
  induction l with
  | nil => intro a; exact le_rfl
  | cons x xs ih =>
      intro a
      exact le_trans (le_max_left a x) (ih (max a x))

theorem mem_le_foldl_max (l : List ℝ) : ∀ a b : ℝ, b ∈ l → b ≤ l.foldl max a := by
  induction l with
  | nil => intro a b hb; cases hb
  | cons x xs ih =>
      intro a b hb
      rcases List.mem_cons.mp hb with hbx | hbxs
      · subst hbx
        exact le_trans (le_max_right a b) (le_foldl_max xs (max a b))
      · exact ih (max a x) b hbxs

theorem foldl_max_mem (l : List ℝ) : ∀ a : ℝ, l.foldl max a = a ∨ l.foldl max a ∈ l := by
  induction l with
  | nil => intro a; exact Or.inl rfl
  | cons x xs ih =>
      intro a
      rcases ih (max a x) with h | h
      · rcases max_choice a x with hm | hm
        · exact Or.inl (by rw [List.foldl_cons, h, hm])
        · exact Or.inr (by rw [List.foldl_cons, h, hm]; exact List.mem_cons_self x xs)
      · exact Or.inr (List.mem_cons_of_mem x h)

theorem le_pymax (l : List ℝ) (b : ℝ) (hb : b ∈ l) : b ≤ pymax l := by
  cases l with
  | nil => cases hb
  | cons x xs =>
      rcases List.mem_cons.mp hb with hbx | hbxs
      · subst hbx; exact le_foldl_max xs b
      · exact mem_le_foldl_max xs x b hbxs

theorem pymax_mem (l : List ℝ) (hl : l ≠ []) : pymax l ∈ l := by
  cases l with
  | nil => exact absurd rfl hl
  | cons x xs =>
      rcases foldl_max_mem xs x with h | h
      · simp only [pymax]
        rw [h]
        exact List.mem_cons_self x xs
      · exact List.mem_cons_of_mem x h

theorem lastN_subset (k : ℕ) (xs : List ℝ) : ∀ a ∈ lastN k xs, a ∈ xs := by
  intro a ha
  exact List.drop_subset _ xs ha

theorem length_lastN (k : ℕ) (xs : List ℝ) :
    (lastN k xs).length = xs.length - (xs.length - k) := by
  simp [lastN]

theorem lastN_ne_nil (k : ℕ) (hk : 0 < k) (xs : List ℝ) (hxs : xs ≠ []) :
    lastN k xs ≠ [] := by
  have hlen : 0 < xs.length := List.length_pos.mpr hxs
  have : 0 < (lastN k xs).length := by
    rw [length_lastN]; omega
  exact List.ne_nil_of_length_pos this

theorem getLast?_lastN (k : ℕ) (hk : 0 < k) (xs : List ℝ) :
    (lastN k xs).getLast? = xs.getLast? := by
  rw [List.getLast?_eq_getElem?, List.getLast?_eq_getElem?]
  unfold lastN
  rw [List.getElem?_drop, List.length_drop]
  congr 1
  omega

theorem peakUpd_some (h p : ℝ) : peakUpd (some h) p = some (max h p) := by
  show (if p > h then some p else some h : Option ℝ) = some (max h p)
  split_ifs with hc
  · rw [max_eq_right hc.le]
  · rw [max_eq_left (not_lt.mp hc)]

theorem peakUpd_none (p : ℝ) : peakUpd none p = some p := rfl

theorem mem_of_getLast?_eq (l : List ℝ) (a : ℝ) (h : l.getLast? = some a) : a ∈ l := by
  have hne : l ≠ [] := by
    intro hn
    rw [hn] at h
    exact Option.noConfusion h
  have h2 := List.getLast?_eq_getLast_of_ne_nil hne
  rw [h2] at h
  have h3 := Option.some.inj h
  rw [← h3]
  exact List.getLast_mem hne

theorem peakUpd_peakUpd (hps : Option ℝ) (p : ℝ) :
    peakUpd (peakUpd hps p) p = peakUpd hps p := by
  cases hps with
  | none =>
      rw [peakUpd_none, peakUpd_some, max_self]
  | some h =>
      rw [peakUpd_some, peakUpd_some, max_assoc, max_self]

/-! ### Lemmas about the hysteresis filter and the drawdown overlay -/

theorem apply_hysteresis_none (a : ℝ) : apply_hysteresis none a = (a, some a) := rfl

theorem apply_hysteresis_some (p a : ℝ) :
    apply_hysteresis (some p) a =
      if |a - p| < minimum_allocation_change then (p, some p) else (a, some a) := rfl

theorem apply_hysteresis_snd (prev : Option ℝ) (a : ℝ) :
    (apply_hysteresis prev a).2 = some ((apply_hysteresis prev a).1) := by
  cases prev with
  | none => rfl
  | some p =>
      rw [apply_hysteresis_some]
      split_ifs <;> rfl

theorem apply_hysteresis_fst_cases (prev : Option ℝ) (a : ℝ) :
    (apply_hysteresis prev a).1 = a ∨
      ∃ p, prev = some p ∧ (apply_hysteresis prev a).1 = p := by
  cases prev with
  | none => exact Or.inl rfl
  | some p =>
      rw [apply_hysteresis_some]
      split_ifs with h
      · exact Or.inr ⟨p, rfl, rfl⟩
      · exact Or.inl rfl

theorem apply_hysteresis_allocOK (prev : Option ℝ) (a : ℝ)
    (hprev : prevOK prev) (ha : allocOK a) :
    allocOK ((apply_hysteresis prev a).1) := by
  rcases apply_hysteresis_fst_cases prev a with h | ⟨p, hp, h⟩
  · rw [h]; exact ha
  · rw [h]; rw [hp] at hprev; exact hprev

theorem peakUpd_isSome (hps : Option ℝ) (p : ℝ) : ∃ h, peakUpd hps p = some h := by
  cases hps with
  | none => exact ⟨p, rfl⟩
  | some h => exact ⟨max h p, peakUpd_some h p⟩

theorem apply_drawdown_overlay_eq (hps : Option ℝ) (a p hp : ℝ)
    (hu : peakUpd hps p = some hp) :
    apply_drawdown_overlay hps a p =
      (if hp ≤ 0 then (a, some hp)
       else if p / hp - 1.0 ≤ -0.45 then (0.0, some hp)
       else if p / hp - 1.0 ≤ -0.35 ∧ a > 0.4 then (0.4, some hp)
       else (a, some hp)) := by
  simp only [apply_drawdown_overlay, hu]

theorem apply_drawdown_overlay_snd (hps : Option ℝ) (a p : ℝ) :
    (apply_drawdown_overlay hps a p).2 = peakUpd hps p := by
  obtain ⟨hp, hu⟩ := peakUpd_isSome hps p
  rw [apply_drawdown_overlay_eq hps a p hp hu, hu]
  split_ifs <;> rfl

theorem apply_drawdown_overlay_fst_cases (hps : Option ℝ) (a p : ℝ) :
    (apply_drawdown_overlay hps a p).1 = a ∨
      (apply_drawdown_overlay hps a p).1 = 0 ∨
      (apply_drawdown_overlay hps a p).1 = 0.4 := by
  obtain ⟨hp, hu⟩ := peakUpd_isSome hps p
  rw [apply_drawdown_overlay_eq hps a p hp hu]
  split_ifs
  · exact Or.inl rfl
  · exact Or.inr (Or.inl (by norm_num))
  · exact Or.inr (Or.inr rfl)
  · exact Or.inl rfl

theorem apply_drawdown_overlay_allocOK (hps : Option ℝ) (a p : ℝ) (ha : allocOK a) :
    allocOK ((apply_drawdown_overlay hps a p).1) := by
  rcases apply_drawdown_overlay_fst_cases hps a p with h | h | h <;> rw [h]
  · exact ha
  · exact Or.inl rfl
  · exact Or.inr (by norm_num)

/-! ### Range facts about the regime classifier and the volatility scaler -/

theorem regime_cases (ph : List ℝ) (p : ℝ) :
    compute_regime_based_allocation ph p = 0 ∨
      (0.2 ≤ compute_regime_based_allocation ph p ∧
        compute_regime_based_allocation ph p ≤ 1) := by
  simp only [compute_regime_based_allocation]
  split_ifs <;> norm_num [min_def]

theorem compute_volatility_scaler_bounds (ph : List ℝ) :
    minimum_volatility_scaler ≤ compute_volatility_scaler ph ∧
      compute_volatility_scaler ph ≤ maximum_volatility_scaler := by
  simp only [compute_volatility_scaler]
  split_ifs with h1 h2 h3 h4 h5
  · constructor <;> norm_num [minimum_volatility_scaler, maximum_volatility_scaler]
  · constructor <;> norm_num [minimum_volatility_scaler, maximum_volatility_scaler]
  · constructor <;> norm_num [minimum_volatility_scaler, maximum_volatility_scaler]
  · constructor
    · exact le_rfl
    · norm_num [minimum_volatility_scaler, maximum_volatility_scaler]
  · constructor
    · norm_num [minimum_volatility_scaler, maximum_volatility_scaler]
    · exact le_rfl
  · exact ⟨not_lt.mp h4, not_lt.mp h5⟩

theorem effective_scaler_bounds (r v : ℝ)
    (hv1 : minimum_volatility_scaler ≤ v) (hv2 : v ≤ maximum_volatility_scaler) :
    minimum_volatility_scaler ≤ (if r > 0.7 ∧ v < 1.0 then max 0.9 v else v) ∧
      (if r > 0.7 ∧ v < 1.0 then max 0.9 v else v) ≤ maximum_volatility_scaler := by
  split_ifs with h
  · constructor
    · exact le_trans (by norm_num [minimum_volatility_scaler]) (le_max_left 0.9 v)
    · exact max_le (by norm_num [maximum_volatility_scaler]) hv2
  · exact ⟨hv1, hv2⟩

theorem clamped_scaled_allocOK (r eff : ℝ)
    (hr : r = 0 ∨ (0.2 ≤ r ∧ r ≤ 1))
    (he1 : minimum_volatility_scaler ≤ eff) (_he2 : eff ≤ maximum_volatility_scaler) :
    allocOK (if (if r * eff < 0.0 then 0.0 else r * eff) > 1.0 then 1.0
             else if r * eff < 0.0 then 0.0 else r * eff) := by
  have he1' : (0.35 : ℝ) ≤ eff := he1
  rcases hr with hr0 | ⟨hr1, hr2⟩
  · subst hr0
    norm_num [allocOK]
  · have hpos : (0.07 : ℝ) ≤ r * eff := by
      calc (0.07 : ℝ) = 0.2 * 0.35 := by norm_num
      _ ≤ r * eff := mul_le_mul hr1 he1' (by norm_num) (by linarith)
    have hnn : ¬ (r * eff < 0.0) := by push_neg; linarith
    split_ifs with h1
    · exact Or.inr (by norm_num)
    · exact Or.inr ⟨hpos, by have := not_lt.mp h1; linarith⟩

/-! ### The step lemma: one make_decision call, shape and invariants -/

theorem dd_snd_idem (hps : Option ℝ) (a p : ℝ) :
    (apply_drawdown_overlay (peakUpd hps p) a p).2 = peakUpd hps p := by
  rw [apply_drawdown_overlay_snd, peakUpd_peakUpd]

theorem make_decision_spec (s : EngineState) (e : ℕ) (p : ℝ)
    (hprev : prevOK s.previous_allocation) :
    ∃ w, make_decision s e p =
        ([("Asset B", w), ("Cash", 1.0 - w)],
         ⟨s.price_history ++ [p], some w, peakUpd s.highest_price_seen p⟩) ∧
      allocOK w := by
  simp only [make_decision]
  by_cases hw : e < max slow_trend_window (max (volatility_window + 1) (zscore_window + 1))
  · rw [if_pos hw]
    refine ⟨(apply_hysteresis s.previous_allocation 0.7).1, ?_, ?_⟩
    · rw [apply_hysteresis_snd]
    · exact apply_hysteresis_allocOK _ _ hprev (Or.inr (by norm_num))
  · rw [if_neg hw]
    have hreg := regime_cases (s.price_history ++ [p]) p
    have hvs := compute_volatility_scaler_bounds (s.price_history ++ [p])
    have heff := effective_scaler_bounds
      (compute_regime_based_allocation (s.price_history ++ [p]) p)
      (compute_volatility_scaler (s.price_history ++ [p])) hvs.1 hvs.2
    have hball := clamped_scaled_allocOK _ _ hreg heff.1 heff.2
    have hdd := apply_drawdown_overlay_allocOK (peakUpd s.highest_price_seen p) _ p hball
    have hfin := apply_hysteresis_allocOK s.previous_allocation _ hprev hdd
    refine ⟨_, ?_, hfin⟩
    rw [apply_hysteresis_snd, dd_snd_idem]

/-! ### Trace-level lemmas -/

theorem run_nil (s : EngineState) : run s [] = s := rfl

theorem run_cons (s : EngineState) (e : ℕ) (p : ℝ) (rest : List (ℕ × ℝ)) :
    run s ((e, p) :: rest) = run (make_decision s e p).2 rest := rfl

theorem decisions_nil (s : EngineState) : decisions s [] = [] := rfl

theorem decisions_cons (s : EngineState) (e : ℕ) (p : ℝ) (rest : List (ℕ × ℝ)) :
    decisions s ((e, p) :: rest) =
      (make_decision s e p).1 :: decisions (make_decision s e p).2 rest := rfl

theorem decisions_length (calls : List (ℕ × ℝ)) :
    ∀ s, (decisions s calls).length = calls.length := by
  induction calls with
  | nil => intro s; rfl
  | cons c rest ih =>
      intro s
      obtain ⟨e, p⟩ := c
      rw [decisions_cons, List.length_cons, List.length_cons, ih]

theorem make_decision_history (s : EngineState) (e : ℕ) (p : ℝ) :
    (make_decision s e p).2.price_history = s.price_history ++ [p] := by
  simp only [make_decision]
  by_cases hw : e < max slow_trend_window (max (volatility_window + 1) (zscore_window + 1))
  · rw [if_pos hw]
  · rw [if_neg hw]

theorem make_decision_peak (s : EngineState) (e : ℕ) (p : ℝ) :
    (make_decision s e p).2.highest_price_seen = peakUpd s.highest_price_seen p := by
  simp only [make_decision]
  by_cases hw : e < max slow_trend_window (max (volatility_window + 1) (zscore_window + 1))
  · rw [if_pos hw]
  · rw [if_neg hw]
    exact dd_snd_idem s.highest_price_seen _ p

theorem run_history (calls : List (ℕ × ℝ)) :
    ∀ s, (run s calls).price_history = s.price_history ++ calls.map Prod.snd := by
  induction calls with
  | nil => intro s; simp [run_nil]
  | cons c rest ih =>
      intro s
      obtain ⟨e, p⟩ := c
      rw [run_cons, ih, make_decision_history]
      simp

theorem run_peak_some (calls : List (ℕ × ℝ)) :
    ∀ (s : EngineState) (h : ℝ), s.highest_price_seen = some h →
      (run s calls).highest_price_seen = some ((calls.map Prod.snd).foldl max h) := by
  induction calls with
  | nil => intro s h hs; rw [run_nil, hs]; rfl
  | cons c rest ih =>
      intro s h hs
      obtain ⟨e, p⟩ := c
      rw [run_cons]
      have hstep : (make_decision s e p).2.highest_price_seen = some (max h p) := by
        rw [make_decision_peak, hs, peakUpd_some]
      rw [ih _ (max h p) hstep]
      rfl

theorem run_prevOK_decisions (calls : List (ℕ × ℝ)) :
    ∀ s, prevOK s.previous_allocation →
      prevOK ((run s calls).previous_allocation) ∧
        ∀ d ∈ decisions s calls,
          ∃ w, d = [("Asset B", w), ("Cash", 1.0 - w)] ∧ allocOK w := by
  induction calls with
  | nil =>
      intro s hs
      exact ⟨hs, by intro d hd; cases hd⟩
  | cons c rest ih =>
      intro s hs
      obtain ⟨e, p⟩ := c
      obtain ⟨w, heq, hw⟩ := make_decision_spec s e p hs
      have hprev2 : prevOK (make_decision s e p).2.previous_allocation := by
        rw [heq]
        exact hw
      obtain ⟨ih1, ih2⟩ := ih (make_decision s e p).2 hprev2
      refine ⟨by rw [run_cons]; exact ih1, ?_⟩
      intro d hd
      rw [decisions_cons] at hd
      rcases List.mem_cons.mp hd with hd1 | hd2
      · refine ⟨w, ?_, hw⟩
        rw [hd1, heq]
      · exact ih2 d hd2

/-! ### Variance, standard deviation and trend-metric helper lemmas -/

theorem variance_nonneg (l : List ℝ) : 0 ≤ population_variance l := by
  simp only [population_variance]
  apply div_nonneg
  · apply List.sum_nonneg
    intro x hx
    obtain ⟨v, -, rfl⟩ := List.mem_map.mp hx
    exact sq_nonneg _
  · exact Nat.cast_nonneg _

theorem stddev_eq_zero_iff (l : List ℝ) :
    compute_standard_deviation l = 0 ↔ population_variance l ≤ 0 := by
  simp only [compute_standard_deviation]
  split_ifs with h
  · simp only [h, iff_true]
    norm_num
  · exact Real.sqrt_eq_zero'

theorem stddev_of_var_pos (l : List ℝ) (h : ¬ population_variance l ≤ 0) :
    compute_standard_deviation l = Real.sqrt (population_variance l) := by
  simp only [compute_standard_deviation]
  rw [if_neg h]

theorem trend_slow_eq (ph : List ℝ) :
    (compute_trend_metrics ph).slow_moving_average =
      compute_simple_moving_average (lastN slow_trend_window ph) := by
  simp only [compute_trend_metrics]
  split_ifs <;> rfl

theorem trend_strengths_of_slow_zero (ph : List ℝ)
    (h : compute_simple_moving_average (lastN slow_trend_window ph) = 0) :
    (compute_trend_metrics ph).fast_trend_strength = 0 ∧
      (compute_trend_metrics ph).medium_trend_strength = 0 := by
  simp only [compute_trend_metrics]
  rw [if_pos h]
  exact ⟨by norm_num, by norm_num⟩

theorem regime_of_slow_zero (ph : List ℝ) (p : ℝ)
    (h : (compute_trend_metrics ph).slow_moving_average = 0) :
    compute_regime_based_allocation ph p = 0.7 := by
  simp only [compute_regime_based_allocation]
  rw [if_pos h]

/-! ### Concrete evaluation helpers -/

theorem warmup_threshold :
    max slow_trend_window (max (volatility_window + 1) (zscore_window + 1)) = 50 := rfl

theorem eval_first_call :
    make_decision init 0 100 =
      ([("Asset B", 0.7), ("Cash", 1.0 - 0.7)], ⟨[100], some 0.7, some 100⟩) := by
  simp only [make_decision]
  rw [if_pos (by rw [warmup_threshold]; norm_num)]
  rfl

theorem eval_run_single : run init [(0, 100)] = ⟨[100], some 0.7, some 100⟩ := by
  rw [run_cons, eval_first_call, run_nil]

/-! ### Warmup lemmas (epoch below the warmup threshold) -/

theorem make_decision_warmup (s : EngineState) (e : ℕ) (p : ℝ) (he : e < 50)
    (hs : s.previous_allocation = none ∨ s.previous_allocation = some 0.7) :
    (make_decision s e p).1 = [("Asset B", 0.7), ("Cash", 1.0 - 0.7)] ∧
      (make_decision s e p).2.previous_allocation = some 0.7 := by
  have hw : e < max slow_trend_window (max (volatility_window + 1) (zscore_window + 1)) := by
    rw [warmup_threshold]; exact he
  simp only [make_decision]
  rw [if_pos hw]
  have hh : apply_hysteresis s.previous_allocation 0.7 = (0.7, some 0.7) := by
    rcases hs with h0 | h0 <;> rw [h0]
    · rfl
    · rw [apply_hysteresis_some]
      rw [if_pos]
      norm_num [minimum_allocation_change]
  rw [hh]
  exact ⟨rfl, rfl⟩

theorem warmup_decisions (calls : List (ℕ × ℝ)) :
    ∀ (s : EngineState) (i : ℕ), i < calls.length →
      (∀ j, j ≤ i → ∀ hj : j < calls.length, (calls.get ⟨j, hj⟩).1 < 50) →
      (s.previous_allocation = none ∨ s.previous_allocation = some 0.7) →
      risky_weight ((decisions s calls).getD i []) = 0.7 := by
  induction calls with
  | nil => intro s i hi hall hs; exact absurd hi (by simp)
  | cons c rest ih =>
      intro s i hi hall hs
      obtain ⟨e, p⟩ := c
      have he : e < 50 := hall 0 (Nat.zero_le i) (by simp)
      obtain ⟨hout, hprev⟩ := make_decision_warmup s e p he hs
      rw [decisions_cons]
      cases i with
      | zero =>
          rw [List.getD_cons_zero, hout]
          norm_num [risky_weight]
      | succ i =>
          rw [List.getD_cons_succ]
          refine ih (make_decision s e p).2 i (by simpa using hi) ?_ (Or.inr hprev)
          intro j hj hjlen
          have := hall (j + 1) (Nat.succ_le_succ hj) (by simpa using hjlen)
          simpa using this

/-! ### Agreement of the division-checked embedding with the total one -/

theorem cdiv_of_ne (a b : ℝ) (h : b ≠ 0) : cdiv a b = some (a / b) := by
  simp only [cdiv]
  rw [if_neg h]

theorem length_ne_zero_real (l : List ℝ) (h : l ≠ []) : (l.length : ℝ) ≠ 0 :=
  Nat.cast_ne_zero.mpr fun hc => h (List.length_eq_zero.mp hc)

theorem sma_chk_eq (values : List ℝ) (h : values ≠ []) :
    compute_simple_moving_average_chk values =
      some (compute_simple_moving_average values) := by
  simp only [compute_simple_moving_average_chk, compute_simple_moving_average]
  exact cdiv_of_ne _ _ (length_ne_zero_real values h)

theorem popvar_chk_eq (values : List ℝ) (h : values ≠ []) :
    population_variance_chk values = some (population_variance values) := by
  simp only [population_variance_chk, sma_chk_eq values h, Option.bind_eq_bind,
    Option.some_bind, population_variance]
  exact cdiv_of_ne _ _ (length_ne_zero_real values h)

theorem stddev_chk_eq (values : List ℝ) (h : values ≠ []) :
    compute_standard_deviation_chk values =
      some (compute_standard_deviation values) := by
  simp only [compute_standard_deviation_chk, popvar_chk_eq values h,
    Option.bind_eq_bind, Option.some_bind, compute_standard_deviation]
  split_ifs <;> rfl

theorem trend_chk_eq (ph : List ℝ) (h : ph ≠ []) :
    compute_trend_metrics_chk ph = some (compute_trend_metrics ph) := by
  have h3 : lastN fast_trend_window ph ≠ [] :=
    lastN_ne_nil _ (by norm_num [fast_trend_window]) _ h
  have h15 : lastN medium_trend_window ph ≠ [] :=
    lastN_ne_nil _ (by norm_num [medium_trend_window]) _ h
  have h50 : lastN slow_trend_window ph ≠ [] :=
    lastN_ne_nil _ (by norm_num [slow_trend_window]) _ h
  simp only [compute_trend_metrics_chk, sma_chk_eq _ h3, sma_chk_eq _ h15,
    sma_chk_eq _ h50, Option.bind_eq_bind, Option.some_bind, compute_trend_metrics]
  split_ifs with hs
  · rfl
  · simp only [cdiv_of_ne _ _ hs, Option.bind_eq_bind, Option.some_bind]

theorem zscore_chk_eq (ph : List ℝ) (cp fma : ℝ) :
    compute_zscore_relative_to_fast_ma_chk ph cp fma =
      some (compute_zscore_relative_to_fast_ma ph cp fma) := by
  simp only [compute_zscore_relative_to_fast_ma_chk, compute_zscore_relative_to_fast_ma]
  by_cases h1 : ph.length < max zscore_window fast_trend_window
  · rw [if_pos h1, if_pos h1]
  · rw [if_neg h1, if_neg h1]
    have hlen : 10 ≤ ph.length := by
      simpa [zscore_window, fast_trend_window] using not_lt.mp h1
    have hne : lastN zscore_window ph ≠ [] :=
      lastN_ne_nil _ (by norm_num [zscore_window]) _
        (List.ne_nil_of_length_pos (by omega))
    simp only [stddev_chk_eq _ hne, Option.bind_eq_bind, Option.some_bind]
    split_ifs with h2
    · rfl
    · exact cdiv_of_ne _ _ h2

theorem breakout_chk_eq (ph : List ℝ) (cp : ℝ) :
    compute_breakout_factor_chk ph cp = some (compute_breakout_factor ph cp) := by
  simp only [compute_breakout_factor_chk, compute_breakout_factor]
  by_cases h1 : ph.length < breakout_window
  · rw [if_pos h1, if_pos h1]
  · rw [if_neg h1, if_neg h1]
    by_cases h2 : pymax (lastN breakout_window ph) = 0
    · rw [if_pos h2, if_pos h2]
    · rw [if_neg h2, if_neg h2]
      simp only [cdiv_of_ne _ _ h2, Option.bind_eq_bind, Option.some_bind]
      split_ifs <;> rfl

theorem seqOpt_eq_map (f : ℕ → Option ℝ) (g : ℕ → ℝ) :
    ∀ l : List ℕ, (∀ i ∈ l, f i = some (g i)) → seqOpt f l = some (l.map g) := by
  intro l
  induction l with
  | nil => intro h; rfl
  | cons x xs ih =>
      intro h
      simp only [seqOpt, h x (List.mem_cons_self x xs),
        ih fun i hi => h i (List.mem_cons_of_mem x hi),
        Option.bind_eq_bind, Option.some_bind, List.map_cons]

theorem getD_mem (l : List ℝ) (i : ℕ) (d : ℝ) (h : i < l.length) : l.getD i d ∈ l := by
  rw [List.getD_eq_getElem?_getD, List.getElem?_eq_getElem h]
  exact List.getElem_mem h

theorem vol_chk_eq (ph : List ℝ) (hpos : ∀ x ∈ ph, 0 < x) :
    compute_volatility_scaler_chk ph = some (compute_volatility_scaler ph) := by
  simp only [compute_volatility_scaler_chk, compute_volatility_scaler]
  by_cases h1 : ph.length < volatility_window + 1
  · rw [if_pos h1, if_pos h1]
  · rw [if_neg h1, if_neg h1]
    have h1' : 11 ≤ ph.length := by simpa [volatility_window] using not_lt.mp h1
    have hrec_len : (lastN (volatility_window + 1) ph).length = volatility_window + 1 := by
      rw [length_lastN]
      simp only [volatility_window]
      omega
    have hret : seqOpt
        (fun index => (cdiv ((lastN (volatility_window + 1) ph).getD (index + 1) 0)
          ((lastN (volatility_window + 1) ph).getD index 0)).map fun q => q - 1.0)
        (List.range volatility_window) =
        some (single_period_returns (lastN (volatility_window + 1) ph)) := by
      apply seqOpt_eq_map
      intro i hi
      have hi10 : i < volatility_window := List.mem_range.mp hi
      have hmem : (lastN (volatility_window + 1) ph).getD i 0 ∈
          lastN (volatility_window + 1) ph :=
        getD_mem _ _ _ (by rw [hrec_len]; omega)
      have hid : (lastN (volatility_window + 1) ph).getD i 0 ≠ 0 :=
        ne_of_gt (hpos _ (lastN_subset _ _ _ hmem))
      rw [cdiv_of_ne _ _ hid]
      rfl
    have hretne : single_period_returns (lastN (volatility_window + 1) ph) ≠ [] := by
      simp [single_period_returns, volatility_window]
    simp only [hret, Option.bind_eq_bind, Option.some_bind,
      popvar_chk_eq _ hretne]
    by_cases h2 : population_variance
        (single_period_returns (lastN (volatility_window + 1) ph)) ≤ 0
    · rw [if_pos h2, if_pos h2]
    · rw [if_neg h2, if_neg h2]
      by_cases h3 : Real.sqrt (population_variance
          (single_period_returns (lastN (volatility_window + 1) ph))) = 0
      · rw [if_pos h3, if_pos h3]
      · rw [if_neg h3, if_neg h3]
        simp only [cdiv_of_ne _ _ h3, Option.bind_eq_bind, Option.some_bind]
        split_ifs <;> rfl

theorem drawdown_chk_eq (hps : Option ℝ) (a p : ℝ) :
    apply_drawdown_overlay_chk hps a p = some (apply_drawdown_overlay hps a p) := by
  obtain ⟨hp, hu⟩ := peakUpd_isSome hps p
  simp only [apply_drawdown_overlay_chk, apply_drawdown_overlay, hu]
  by_cases h1 : hp ≤ 0
  · rw [if_pos h1, if_pos h1]
  · rw [if_neg h1, if_neg h1]
    simp only [cdiv_of_ne _ _ (ne_of_gt (not_le.mp h1)), Option.bind_eq_bind,
      Option.some_bind]
    split_ifs <;> rfl

theorem regime_chk_eq (ph : List ℝ) (h : ph ≠ []) (p : ℝ) :
    compute_regime_based_allocation_chk ph p =
      some (compute_regime_based_allocation ph p) := by
  simp only [compute_regime_based_allocation_chk, compute_regime_based_allocation,
    trend_chk_eq ph h, Option.bind_eq_bind, Option.some_bind]
  by_cases hs : (compute_trend_metrics ph).slow_moving_average = 0
  · rw [if_pos hs, if_pos hs]
  · rw [if_neg hs, if_neg hs]
    simp only [cdiv_of_ne _ _ hs, zscore_chk_eq, breakout_chk_eq,
      Option.bind_eq_bind, Option.some_bind, apply_ite (Option.some (α := ℝ))]

theorem make_decision_chk_eq (s : EngineState) (e : ℕ) (p : ℝ)
    (hh : ∀ x ∈ s.price_history, 0 < x) (hp : 0 < p) :
    make_decision_chk s e p = some (make_decision s e p) := by
  simp only [make_decision_chk, make_decision]
  by_cases hw : e < max slow_trend_window (max (volatility_window + 1) (zscore_window + 1))
  · rw [if_pos hw, if_pos hw]
  · rw [if_neg hw, if_neg hw]
    have hne : s.price_history ++ [p] ≠ [] := by simp
    have hpos2 : ∀ x ∈ s.price_history ++ [p], 0 < x := by
      intro x hx
      rcases List.mem_append.mp hx with h | h
      · exact hh x h
      · rw [List.mem_singleton.mp h]
        exact hp
    simp only [regime_chk_eq _ hne p, vol_chk_eq _ hpos2, drawdown_chk_eq,
      Option.bind_eq_bind, Option.some_bind]

/-! ### Claim theorems -/

/-- C1: for every sequence of make_decision calls with positive prices
(warmup epochs and degenerate inputs such as a constant price series
included), every returned mapping has exactly the two keys Asset B and Cash,
the risky weight lies between 0 and 1, and risky and cash weights sum to
exactly 1.0. -/
theorem C1_allocation_invariants (calls : List (ℕ × ℝ))
    (_hpos : ∀ q ∈ calls.map Prod.snd, 0 < q)
    (d : List (String × ℝ)) (hd : d ∈ decisions init calls) :
    ∃ w, d = [("Asset B", w), ("Cash", 1.0 - w)] ∧
      0 ≤ w ∧ w ≤ 1 ∧ w + (1.0 - w) = 1.0 := by
  obtain ⟨-, hall⟩ := run_prevOK_decisions calls init trivial
  obtain ⟨w, hshape, hok⟩ := hall d hd
  refine ⟨w, hshape, ?_, ?_, by ring⟩
  · rcases hok with h0 | ⟨h1, h2⟩
    · exact h0.ge
    · linarith
  · rcases hok with h0 | ⟨h1, h2⟩
    · exact h0.le.trans (by norm_num)
    · exact h2

/-- Witness for C1 at the single call (epoch 0, price 100). -/
theorem C1_witness :
    ∃ w, [("Asset B", (0.7 : ℝ)), ("Cash", 1.0 - 0.7)] = [("Asset B", w), ("Cash", 1.0 - w)] ∧
      0 ≤ w ∧ w ≤ 1 ∧ w + (1.0 - w) = 1.0 := by
  have hd : [("Asset B", (0.7 : ℝ)), ("Cash", 1.0 - 0.7)] ∈ decisions init [(0, 100)] := by
    rw [decisions_cons, decisions_nil, eval_first_call]
    exact List.mem_singleton_self _
  exact C1_allocation_invariants [(0, 100)] (by norm_num) _ hd

/-- C9: on every trace with positive prices, the stored previous allocation
and every returned risky weight is either exactly 0 or at least 0.07, the
smallest positive product of a regime base (0.2) and the minimum volatility
scaler (0.35), which exceeds the 0.06 hysteresis band. -/
theorem C9_minimum_positive_allocation (calls : List (ℕ × ℝ))
    (_hpos : ∀ q ∈ calls.map Prod.snd, 0 < q) :
    (∀ a, (run init calls).previous_allocation = some a →
        a = 0 ∨ (0.07 ≤ a ∧ a ≤ 1)) ∧
      ∀ d ∈ decisions init calls,
        risky_weight d = 0 ∨ (0.07 ≤ risky_weight d ∧ risky_weight d ≤ 1) := by
  obtain ⟨hprev, hall⟩ := run_prevOK_decisions calls init trivial
  constructor
  · intro a ha
    rw [ha] at hprev
    exact hprev
  · intro d hd
    obtain ⟨w, hshape, hok⟩ := hall d hd
    rw [hshape]
    simpa [risky_weight, allocOK] using hok

/-- Witness for C9 at the single call (epoch 0, price 100). -/
theorem C9_witness :
    risky_weight [("Asset B", (0.7 : ℝ)), ("Cash", 1.0 - 0.7)] = 0 ∨
      (0.07 ≤ risky_weight [("Asset B", (0.7 : ℝ)), ("Cash", 1.0 - 0.7)] ∧
        risky_weight [("Asset B", (0.7 : ℝ)), ("Cash", 1.0 - 0.7)] ≤ 1) := by
  have hd : [("Asset B", (0.7 : ℝ)), ("Cash", 1.0 - 0.7)] ∈ decisions init [(0, 100)] := by
    rw [decisions_cons, decisions_nil, eval_first_call]
    exact List.mem_singleton_self _
  exact (C9_minimum_positive_allocation [(0, 100)] (by norm_num)).2 _ hd

/-- C4: in a trace whose epochs start at 0 and strictly increase, every call
with epoch below 50 returns the hysteresis-filtered default risky weight,
exactly 0.7. -/
theorem C4_warmup_default (calls : List (ℕ × ℝ))
    (hsorted : List.Sorted (· < ·) (calls.map Prod.fst))
    (_hstart : (calls.map Prod.fst).head? = some 0 ∨ calls = [])
    (i : ℕ) (hi : i < calls.length) (hep : (calls.get ⟨i, hi⟩).1 < 50) :
    risky_weight ((decisions init calls).getD i []) = 0.7 := by
  refine warmup_decisions calls init i hi ?_ (Or.inl rfl)
  intro j hj hjlen
  rcases Nat.lt_or_ge j i with hlt | hge
  · have hjm : j < (calls.map Prod.fst).length := by simpa using hjlen
    have him : i < (calls.map Prod.fst).length := by simpa using hi
    have hpair := List.pairwise_iff_getElem.mp hsorted j i hjm him hlt
    rw [List.getElem_map, List.getElem_map] at hpair
    have hji : (calls.get ⟨j, hjlen⟩).1 < (calls.get ⟨i, hi⟩).1 := by
      simpa [List.get_eq_getElem] using hpair
    omega
  · have hij : j = i := le_antisymm hj hge
    subst hij
    exact hep

/-- Witness for C4 at the single call (epoch 0, price 100). -/
theorem C4_witness :
    risky_weight ((decisions init [(0, 100)]).getD 0 []) = 0.7 :=
  C4_warmup_default [(0, 100)] (List.sorted_singleton 0) (Or.inl rfl) 0
    (by norm_num) (by norm_num)

/-- C6: the hysteresis filter returns and stores the incoming allocation on
first invocation; later, a change smaller than 0.06 is discarded (output and
stored value stay at the previous allocation) and any other change is
accepted and stored. -/
theorem C6_hysteresis_behavior (a p : ℝ) :
    apply_hysteresis none a = (a, some a) ∧
      (|a - p| < 0.06 → apply_hysteresis (some p) a = (p, some p)) ∧
      (¬ |a - p| < 0.06 → apply_hysteresis (some p) a = (a, some a)) := by
  refine ⟨rfl, ?_, ?_⟩
  · intro h
    rw [apply_hysteresis_some, if_pos (by simpa [minimum_allocation_change] using h)]
  · intro h
    rw [apply_hysteresis_some, if_neg (by simpa [minimum_allocation_change] using h)]

/-- Witness for C6: a change of 0.02 is suppressed. -/
theorem C6_witness :
    apply_hysteresis (some (0.52 : ℝ)) 0.5 = (0.52, some 0.52) :=
  (C6_hysteresis_behavior 0.5 0.52).2.1 (by rw [abs_sub_lt_iff]; constructor <;> norm_num)

/-- C7: after any nonempty sequence of calls the stored peak price equals the
maximum of all prices supplied so far, and a further call never decreases a
stored peak. -/
theorem C7_peak_tracking (calls : List (ℕ × ℝ)) (hne : calls ≠ []) :
    ((run init calls).highest_price_seen = some (pymax (calls.map Prod.snd)) ∧
      pymax (calls.map Prod.snd) ∈ calls.map Prod.snd ∧
      ∀ q ∈ calls.map Prod.snd, q ≤ pymax (calls.map Prod.snd)) ∧
    ∀ (s : EngineState) (e : ℕ) (p P : ℝ), s.highest_price_seen = some P →
      ∃ Q, (make_decision s e p).2.highest_price_seen = some Q ∧ P ≤ Q := by
  constructor
  · obtain ⟨c, rest, rfl⟩ := List.exists_cons_of_ne_nil hne
    obtain ⟨e, p⟩ := c
    refine ⟨?_, pymax_mem _ (by simp), fun q hq => le_pymax _ q hq⟩
    rw [run_cons]
    have hstep : (make_decision init e p).2.highest_price_seen = some p := by
      rw [make_decision_peak]
      rfl
    rw [run_peak_some rest _ p hstep]
    rfl
  · intro s e p P hP
    refine ⟨max P p, ?_, le_max_left P p⟩
    rw [make_decision_peak, hP, peakUpd_some]

/-- Witness for C7 at the single call (epoch 0, price 100). -/
theorem C7_witness :
    (run init [(0, 100)]).highest_price_seen = some (pymax ([((0 : ℕ), (100 : ℝ))].map Prod.snd)) :=
  (C7_peak_tracking [(0, 100)] (by simp)).1.1

/-- Counterexample to C2 as stated: during warmup the drawdown overlay is
never applied.  After one call at price 100 the peak is 100, and the warmup
call (epoch 1) at price 50 (at most 0.55 times the peak) still returns the
default risky weight 0.7, not 0. -/
theorem C2_counterexample :
    (run init [(0, 100)]).highest_price_seen = some 100 ∧
      (50 : ℝ) ≤ 0.55 * 100 ∧
      risky_weight (make_decision (run init [(0, 100)]) 1 50).1 = 0.7 ∧
      risky_weight (make_decision (run init [(0, 100)]) 1 50).1 ≠ 0 := by
  have hprev : (run init [((0 : ℕ), (100 : ℝ))]).previous_allocation = some 0.7 := by
    rw [eval_run_single]
  have hpk : (run init [((0 : ℕ), (100 : ℝ))]).highest_price_seen = some 100 := by
    rw [eval_run_single]
  have hout := (make_decision_warmup (run init [(0, 100)]) 1 50 (by norm_num)
    (Or.inr hprev)).1
  refine ⟨hpk, by norm_num, ?_, ?_⟩
  · rw [hout]
    norm_num [risky_weight]
  · rw [hout]
    norm_num [risky_weight]

/-- C2 (amended): on post-warmup calls (epoch at least 50), whenever the
stored peak is P and the incoming price is at most 0.55 P, make_decision
returns a risky weight of exactly 0, regardless of the trend, breakout,
z-score and volatility signals. -/
theorem C2_drawdown_floor (calls : List (ℕ × ℝ))
    (hpos : ∀ q ∈ calls.map Prod.snd, 0 < q)
    (e : ℕ) (he : 50 ≤ e) (p P : ℝ) (hp : 0 < p)
    (hP : (run init calls).highest_price_seen = some P)
    (hdrop : p ≤ 0.55 * P) :
    risky_weight (make_decision (run init calls) e p).1 = 0 := by
  have hne : calls ≠ [] := by
    intro h
    rw [h, run_nil] at hP
    exact Option.noConfusion hP
  have hPmem : P ∈ calls.map Prod.snd := by
    have hmapne : calls.map Prod.snd ≠ [] := by
      simpa using hne
    have hpeak : (run init calls).highest_price_seen =
        some (pymax (calls.map Prod.snd)) := by
      obtain ⟨c, rest, rfl⟩ := List.exists_cons_of_ne_nil hne
      obtain ⟨e0, p0⟩ := c
      rw [run_cons]
      have hstep : (make_decision init e0 p0).2.highest_price_seen = some p0 := by
        rw [make_decision_peak]
        rfl
      rw [run_peak_some rest _ p0 hstep]
      rfl
    rw [hpeak] at hP
    have : P = pymax (calls.map Prod.snd) := (Option.some.inj hP).symm
    rw [this]
    exact pymax_mem _ hmapne
  have hPpos : 0 < P := hpos P hPmem
  have hple : p ≤ P := le_trans hdrop (by linarith)
  have hpk : peakUpd (run init calls).highest_price_seen p = some P := by
    rw [hP, peakUpd_some, max_eq_left hple]
  have hprev : prevOK (run init calls).previous_allocation :=
    (run_prevOK_decisions calls init trivial).1
  have hdd0 : ∀ a : ℝ,
      (apply_drawdown_overlay (peakUpd (run init calls).highest_price_seen p) a p).1 = 0 := by
    intro a
    rw [apply_drawdown_overlay_eq _ a p P (by rw [peakUpd_peakUpd]; exact hpk)]
    have hq : p / P ≤ 0.55 := (div_le_iff₀ hPpos).mpr (by linarith)
    rw [if_neg (not_le.mpr hPpos), if_pos (by linarith : p / P - 1.0 ≤ -0.45)]
    norm_num
  have hhy : (apply_hysteresis (run init calls).previous_allocation 0).1 = 0 := by
    rcases hs : (run init calls).previous_allocation with _ | a
    · rfl
    · rw [apply_hysteresis_some]
      have hOK : allocOK a := by
        rw [hs] at hprev
        exact hprev
      rcases hOK with h0 | ⟨h1, h2⟩
      · rw [h0, if_pos (by norm_num [minimum_allocation_change] :
          |(0 : ℝ) - 0| < minimum_allocation_change)]
      · have hc : ¬ |(0 : ℝ) - a| < minimum_allocation_change := by
          push_neg
          rw [zero_sub, abs_neg, abs_of_pos (by linarith)]
          calc minimum_allocation_change = 0.06 := rfl
          _ ≤ a := by linarith
        rw [if_neg hc]
  simp only [make_decision]
  rw [if_neg (by rw [warmup_threshold]; omega)]
  simp only [risky_weight, List.headD]
  rw [hdd0, hhy]

/-- Witness for the amended C2: one warmup call at price 100, then a
post-warmup call (epoch 50) at price 55 = 0.55 times the peak returns 0. -/
theorem C2_witness :
    risky_weight (make_decision (run init [(0, 100)]) 50 55).1 = 0 :=
  C2_drawdown_floor [(0, 100)] (by norm_num) 50 (by norm_num) 55 100
    (by norm_num) (by rw [eval_run_single]) (by norm_num)

/-- Counterexample to C3 as stated: on a history of 51 zero prices the slow
moving average is 0, but compute_regime_based_allocation returns the
degenerate-guard value 0.7, not the neutral-fallback value 0.5 the claim
predicts. -/
theorem C3_counterexample :
    (compute_trend_metrics (List.replicate 51 (0 : ℝ))).slow_moving_average = 0 ∧
      slow_trend_window ≤ (List.replicate 51 (0 : ℝ)).length ∧
      compute_regime_based_allocation (List.replicate 51 (0 : ℝ)) 0 ≠ 0.5 ∧
      compute_regime_based_allocation (List.replicate 51 (0 : ℝ)) 0 = 0.7 := by
  have hz : ∀ x ∈ lastN slow_trend_window (List.replicate 51 (0 : ℝ)), x = 0 := by
    intro x hx
    exact List.eq_of_mem_replicate (lastN_subset _ _ x hx)
  have hS : compute_simple_moving_average
      (lastN slow_trend_window (List.replicate 51 (0 : ℝ))) = 0 := by
    simp only [compute_simple_moving_average]
    rw [List.sum_eq_zero hz, zero_div]
  have hslow : (compute_trend_metrics (List.replicate 51 (0 : ℝ))).slow_moving_average = 0 := by
    rw [trend_slow_eq]
    exact hS
  have hreg := regime_of_slow_zero (List.replicate 51 (0 : ℝ)) 0 hslow
  refine ⟨hslow, by simp [slow_trend_window], ?_, hreg⟩
  rw [hreg]
  norm_num

/-- C3 (amended): on any post-warmup history whose slow moving average is 0,
all trend strengths are 0.0 and compute_regime_based_allocation returns the
degenerate-price-guard allocation 0.7 directly, never reaching the neutral
fallback of the decision tree. -/
theorem C3_degenerate_slow_average (ph : List ℝ)
    (_hlen : slow_trend_window ≤ ph.length) (p : ℝ)
    (hslow : (compute_trend_metrics ph).slow_moving_average = 0) :
    (compute_trend_metrics ph).fast_trend_strength = 0 ∧
      (compute_trend_metrics ph).medium_trend_strength = 0 ∧
      compute_regime_based_allocation ph p = 0.7 := by
  have hS : compute_simple_moving_average (lastN slow_trend_window ph) = 0 := by
    rw [← trend_slow_eq]
    exact hslow
  obtain ⟨h1, h2⟩ := trend_strengths_of_slow_zero ph hS
  exact ⟨h1, h2, regime_of_slow_zero ph p hslow⟩

/-- Witness for the amended C3 on the all-zero history of length 51. -/
theorem C3_witness :
    (compute_trend_metrics (List.replicate 51 (0 : ℝ))).fast_trend_strength = 0 ∧
      (compute_trend_metrics (List.replicate 51 (0 : ℝ))).medium_trend_strength = 0 ∧
      compute_regime_based_allocation (List.replicate 51 (0 : ℝ)) 0 = 0.7 := by
  refine C3_degenerate_slow_average (List.replicate 51 (0 : ℝ))
    (by simp [slow_trend_window]) 0 ?_
  rw [trend_slow_eq]
  simp only [compute_simple_moving_average]
  rw [List.sum_eq_zero, zero_div]
  intro x hx
  exact List.eq_of_mem_replicate (lastN_subset _ _ x hx)

/-- C5: the volatility scaler always lies between 0.35 and 2.0; it is exactly
1.0 when fewer than 11 prices exist or the realized volatility of the last 10
single-period returns is 0, and otherwise equals target_daily_volatility
divided by that realized volatility, clamped to the band. -/
theorem C5_volatility_scaler (ph : List ℝ) :
    (minimum_volatility_scaler ≤ compute_volatility_scaler ph ∧
      compute_volatility_scaler ph ≤ maximum_volatility_scaler) ∧
    (ph.length < volatility_window + 1 → compute_volatility_scaler ph = 1.0) ∧
    (volatility_window + 1 ≤ ph.length → realized_volatility ph = 0 →
      compute_volatility_scaler ph = 1.0) ∧
    (volatility_window + 1 ≤ ph.length → realized_volatility ph ≠ 0 →
      compute_volatility_scaler ph =
        if target_daily_volatility / realized_volatility ph < minimum_volatility_scaler
        then minimum_volatility_scaler
        else if target_daily_volatility / realized_volatility ph > maximum_volatility_scaler
        then maximum_volatility_scaler
        else target_daily_volatility / realized_volatility ph) := by
  refine ⟨compute_volatility_scaler_bounds ph, ?_, ?_, ?_⟩
  · intro h
    simp only [compute_volatility_scaler]
    rw [if_pos h]
  · intro hlen h0
    simp only [realized_volatility] at h0
    have hv : population_variance
        (single_period_returns (lastN (volatility_window + 1) ph)) ≤ 0 :=
      (stddev_eq_zero_iff _).mp h0
    simp only [compute_volatility_scaler]
    rw [if_neg (not_lt.mpr hlen), if_pos hv]
  · intro hlen h0
    simp only [realized_volatility] at h0
    have hv : ¬ population_variance
        (single_period_returns (lastN (volatility_window + 1) ph)) ≤ 0 := by
      intro hc
      exact h0 ((stddev_eq_zero_iff _).mpr hc)
    have hrv : realized_volatility ph =
        Real.sqrt (population_variance
          (single_period_returns (lastN (volatility_window + 1) ph))) :=
      stddev_of_var_pos _ hv
    have hsne : ¬ Real.sqrt (population_variance
        (single_period_returns (lastN (volatility_window + 1) ph))) = 0 := by
      rw [Real.sqrt_eq_zero']
      exact hv
    simp only [compute_volatility_scaler]
    rw [if_neg (not_lt.mpr hlen), if_neg hv, if_neg hsne, hrv]

/-- Witness for C5 on the empty history (fewer than 11 prices). -/
theorem C5_witness : compute_volatility_scaler [] = 1.0 :=
  (C5_volatility_scaler []).2.1 (by norm_num [volatility_window])

/-- C10: the breakout factor takes only the values 0, 0.7 and 1; the current
price, being part of its own 30-price window, is never strictly above the
window maximum, and the factor is 1 exactly when the window exists and the
current price equals the maximum of the last 30 prices. -/
theorem C10_breakout_factor (ph : List ℝ) (p : ℝ)
    (hpos : ∀ x ∈ ph, 0 < x) (hlast : ph.getLast? = some p) :
    (compute_breakout_factor ph p = 0 ∨ compute_breakout_factor ph p = 0.7 ∨
      compute_breakout_factor ph p = 1) ∧
    p ≤ pymax (lastN breakout_window ph) ∧
    (compute_breakout_factor ph p = 1 ↔
      (breakout_window ≤ ph.length ∧ p = pymax (lastN breakout_window ph))) := by
  have hne : ph ≠ [] := by
    intro h
    rw [h] at hlast
    exact Option.noConfusion hlast
  have hmem : p ∈ lastN breakout_window ph := by
    apply mem_of_getLast?_eq
    rw [getLast?_lastN breakout_window (by norm_num [breakout_window]) ph]
    exact hlast
  have hple : p ≤ pymax (lastN breakout_window ph) := le_pymax _ p hmem
  have hLne : lastN breakout_window ph ≠ [] :=
    lastN_ne_nil _ (by norm_num [breakout_window]) _ hne
  have hMpos : 0 < pymax (lastN breakout_window ph) :=
    hpos _ (lastN_subset _ _ _ (pymax_mem _ hLne))
  refine ⟨?_, hple, ?_, ?_⟩
  · simp only [compute_breakout_factor]
    split_ifs <;> norm_num
  · intro h1
    by_cases hlen : ph.length < breakout_window
    · exfalso
      simp only [compute_breakout_factor] at h1
      rw [if_pos hlen] at h1
      norm_num at h1
    · push_neg at hlen
      refine ⟨hlen, ?_⟩
      simp only [compute_breakout_factor] at h1
      rw [if_neg (not_lt.mpr hlen), if_neg (ne_of_gt hMpos)] at h1
      by_cases hd : (p - pymax (lastN breakout_window ph)) /
          pymax (lastN breakout_window ph) ≥ 0.0
      · have hd2 : (0 : ℝ) ≤ (p - pymax (lastN breakout_window ph)) /
            pymax (lastN breakout_window ph) := by linarith
        have hd3 := (le_div_iff₀ hMpos).mp hd2
        exact le_antisymm hple (by linarith)
      · exfalso
        rw [if_neg hd] at h1
        split_ifs at h1 <;> norm_num at h1
  · rintro ⟨hlen, hpeq⟩
    have hd : (p - pymax (lastN breakout_window ph)) /
        pymax (lastN breakout_window ph) ≥ 0.0 := by
      rw [hpeq, sub_self, zero_div]
      norm_num
    simp only [compute_breakout_factor]
    rw [if_neg (not_lt.mpr hlen), if_neg (ne_of_gt hMpos), if_pos hd]
    norm_num

/-- C8: under positive prices, no division in the engine ever has a zero
denominator and no call of make_decision can fail: the division-checked
variant (which fails exactly where Python would raise ZeroDivisionError, and
in which mean and variance fail on empty lists) succeeds on every reachable
state and agrees with the total embedding. -/
theorem C8_division_safety (calls : List (ℕ × ℝ))
    (hpos : ∀ q ∈ calls.map Prod.snd, 0 < q) (e : ℕ) (p : ℝ) (hp : 0 < p) :
    make_decision_chk (run init calls) e p = some (make_decision (run init calls) e p) := by
  apply make_decision_chk_eq
  · intro x hx
    rw [run_history calls init] at hx
    exact hpos x (by simpa [init] using hx)
  · exact hp

/-- Witness for C8: the first call at price 1 from the initial state. -/
theorem C8_witness :
    make_decision_chk (run init []) 0 1 = some (make_decision (run init []) 0 1) :=
  C8_division_safety [] (by simp) 0 1 (by norm_num)

/-- Witness for C10 at the single positive price 5. -/
theorem C10_witness :
    (compute_breakout_factor [(5 : ℝ)] 5 = 0 ∨ compute_breakout_factor [(5 : ℝ)] 5 = 0.7 ∨
      compute_breakout_factor [(5 : ℝ)] 5 = 1) ∧
    (5 : ℝ) ≤ pymax (lastN breakout_window [(5 : ℝ)]) ∧
    (compute_breakout_factor [(5 : ℝ)] 5 = 1 ↔
      (breakout_window ≤ [(5 : ℝ)].length ∧
        (5 : ℝ) = pymax (lastN breakout_window [(5 : ℝ)]))) :=
  C10_breakout_factor [5] 5 (by norm_num) rfl

end BotTrade

end
